import Mathlib

/-!
Verification development for the Atomik reactive state runtime.

The repository contains two parallel store implementations plus the atom
creators in `atoms.ts`:
  * `Store5` below embeds the standalone `class Store` of `src/unnamed/part_005`
    (get with Access-Stack cycle detection, performUpdate with Object.is change
    suppression, set with onWrite middleware dispatch, batch with deferred
    notification).
  * `Store4` below embeds the `class Store` of `src/unnamed/part_004`
    (get with try/finally stack restore and the `value === undefined` cache
    presence test, set with a flat onWrite reduce and unconditional notify).
  * `ComputationCache` below embeds `src/unnamed/part_006`
    (set with dependency-graph update, invalidate with cascade).
  * `SetterSlot` below embeds the shape of the object returned by
    `createDerivedAtom` in `src/src/atoms.ts` (the `set` member exists only
    when `config.write` was supplied).

Modelling conventions: atom identities (JS symbols) are `Nat`; stored values
are `Int`; JS `Map`s are association lists with replace-in-place update; JS
`Set`s of keys are duplicate-free lists in insertion order; a value that may
be `undefined` is `Option Int` with `none` for `undefined`; code that can
throw returns `Except Err`; recursion through user read recipes is bounded by
an explicit fuel argument (`Err.fuelExhausted` marks fuel running out, which
has no JS counterpart).  Wall-clock timestamps (`Date.now()`) are passed in as
a `now : Nat` argument; the `onInit`/`onError` middleware hooks and the
performance middleware, which only observe, are not modelled.
-/

/-- Error taxonomy of `src/src/errors.ts` plus the JavaScript `TypeError`
raised when a missing member is invoked, and a marker for exhausted fuel. -/
inductive Err where
  | circularDependency (msg : String)
  | atomNotFound (msg : String)
  | invalidAtomUpdate (msg : String)
  | typeError (msg : String)
  | fuelExhausted
deriving Repr, DecidableEq

/-- Message text carried by an error (JS `error.message`). -/
def Err.message : Err → String
  | .circularDependency m => m
  | .atomNotFound m => m
  | .invalidAtomUpdate m => m
  | .typeError m => m
  | .fuelExhausted => "fuel exhausted"

/-- Association-list lookup, modelling `Map.get` (`none` when the key is absent). -/
def mapLookup {A : Type} : List (Nat × A) → Nat → Option A
  | [], _ => none
  | (k0, v0) :: rest, k => if k0 = k then some v0 else mapLookup rest k

/-- Association-list update, modelling `Map.set` (replace in place or append). -/
def mapSet {A : Type} : List (Nat × A) → Nat → A → List (Nat × A)
  | [], k, v => [(k, v)]
  | (k0, v0) :: rest, k, v =>
    if k0 = k then (k, v) :: rest else (k0, v0) :: mapSet rest k v

/-- Association-list removal, modelling `Map.delete`. -/
def mapDelete {A : Type} : List (Nat × A) → Nat → List (Nat × A)
  | [], _ => []
  | (k0, v0) :: rest, k =>
    if k0 = k then rest else (k0, v0) :: mapDelete rest k

/-- Key insertion into a JS `Set` modelled as a duplicate-free list in
insertion order (`Set.add` is a no-op on a present element). -/
def addKey (l : List Nat) (k : Nat) : List Nat :=
  if k ∈ l then l else l ++ [k]

namespace Store5

/-- Entry of the part_005 `class Store`'s private `state` map
(`AtomEntry<T> = value, subscribers, lastAccessed?, version`).  The subscriber
set is modelled by its cardinality: a notification event is emitted once per
subscriber, which is all the claims observe. -/
structure Entry where
  value : Int
  subCount : Nat
  version : Nat
  lastAccessed : Nat
deriving Repr, DecidableEq

/-- Mutable state of one part_005 `class Store` instance, together with the
module-level backing storage that a well-formed source atom's `set`/`read`
closures use (`atom.set` writes it, `atom.read` reads it). -/
structure St where
  backing : List (Nat × Int)
  entries : List (Nat × Entry)
  stack : List Nat
  isInBatch : Bool
  batchUpdates : List Nat
deriving Repr, DecidableEq

/-- Read recipe of an atom: the keys it reads through the injected `get`, in
order, followed by a final computation over the obtained values which may
itself throw.  `env : Nat → Recipe` assigns each atom key its recipe. -/
structure Recipe where
  reads : List Nat
  after : List Int → Except Err Int

/-- Observable trace events of the write path: `performUpdate` ran with a
proposed value, a subscriber callback was invoked with a value, the onWrite
interceptor at a position in the middleware list ran. -/
inductive Ev where
  | performUpdateRan (v : Int)
  | notified (k : Nat) (v : Int)
  | interceptorRan (i : Nat)
deriving Repr, DecidableEq

/-- Evaluation of the list of nested `get` calls a recipe performs;
the recursive `get` at the current fuel level is passed in as `g`.
Exceptions propagate (state mutations before the throw are kept). -/
def readsLoop (g : Nat → St → Except Err Int × St) :
    List Nat → St → Except Err (List Int) × St
  | [], st => (.ok [], st)
  | k :: rest, st =>
    match g k st with
    | (.ok v, st1) =>
      match readsLoop g rest st1 with
      | (.ok vs, st2) => (.ok (v :: vs), st2)
      | (.error e, st2) => (.error e, st2)
    | (.error e, st1) => (.error e, st1)

/-- The part_005 `Store.get`: circular-dependency check against the Access
Stack, maximum-depth check (`maxCircularDepth = 100`), cache hit returning the
memoized value through the `onRead` middleware chain, or cache miss pushing
the key, running the recipe, popping on success and on failure, and storing a
fresh entry.  `onRead` is the store's middleware list restricted to its
`onRead` hooks; recursion is bounded by `fuel`. -/
def get (fuel : Nat) (now : Nat) (onRead : List (Int → Int)) (env : Nat → Recipe)
    (k : Nat) (st : St) : Except Err Int × St :=
  match fuel with
  | 0 => (.error .fuelExhausted, st)
  | fuel + 1 =>
    if k ∈ st.stack then
      (.error (.circularDependency "Circular dependency detected"), st)
    else if 100 ≤ st.stack.length then
      (.error (.circularDependency "Maximum dependency depth exceeded"), st)
    else
      match mapLookup st.entries k with
      | some e =>
        let st1 := { st with entries := mapSet st.entries k { e with lastAccessed := now } }
        (.ok (onRead.foldl (fun a f => f a) e.value), st1)
      | none =>
        let st1 := { st with stack := k :: st.stack }
        match readsLoop (fun k' st' => get fuel now onRead env k' st') (env k).reads st1 with
        | (.ok vs, st2) =>
          match (env k).after vs with
          | .ok v =>
            let st3 := { st2 with stack := st2.stack.erase k }
            (.ok v, { st3 with entries := mapSet st3.entries k ⟨v, 0, 0, now⟩ })
          | .error e => (.error e, { st2 with stack := st2.stack.erase k })
        | (.error e, st2) => (.error e, { st2 with stack := st2.stack.erase k })

/-- The part_005 `Store.performUpdate` for a writable source atom with key
`k`: invoke `atom.set(update)` (write the backing storage; `hasSet = false`
models an atom whose object carries no `set` member, on which the invocation
raises a JS TypeError), recompute via `atom.read` (a source atom's read
replies with its backing value), look the entry up, and only when the new
value differs under `Object.is` update the entry and either record the key
for the batch or notify each subscriber once. -/
def performUpdate (now : Nat) (k : Nat) (hasSet : Bool) (v : Int) (st : St) :
    Except Err Unit × St × List Ev :=
  if hasSet = false then
    (.error (.typeError "atom.set is not a function"), st, [])
  else
    let st1 := { st with backing := mapSet st.backing k v }
    let newComputed := (mapLookup st1.backing k).getD v
    match mapLookup st1.entries k with
    | none => (.error (.atomNotFound "Atom not found in store"), st1, [.performUpdateRan v])
    | some e =>
      if e.value = newComputed then
        (.ok (), st1, [.performUpdateRan v])
      else
        let e' : Entry := { e with value := newComputed, version := e.version + 1, lastAccessed := now }
        let st2 := { st1 with entries := mapSet st1.entries k e' }
        if st2.isInBatch then
          (.ok (), { st2 with batchUpdates := addKey st2.batchUpdates k }, [.performUpdateRan v])
        else
          (.ok (), st2, .performUpdateRan v :: List.replicate e'.subCount (.notified k newComputed))

/-- Behaviour of one `onWrite` interceptor: it receives the atom key, the
proposed update, a continuation `next` and the store state, and returns the
result, new state and emitted events. -/
def OnWriteFn : Type :=
  Nat → Int → (Int → St → Except Err Unit × St × List Ev) → St →
    Except Err Unit × St × List Ev

/-- Scan of the middleware list for the first interceptor with an `onWrite`
hook, with its position. -/
def findOnWrite : List (Option OnWriteFn) → Nat → Option (Nat × OnWriteFn)
  | [], _ => none
  | some f :: _, i => some (i, f)
  | none :: rest, i => findOnWrite rest (i + 1)

/-- The part_005 `Store.set`: the middleware loop invokes the FIRST
interceptor that has an `onWrite` hook, handing it `performUpdate` as the
continuation, and returns immediately; with no such interceptor it calls
`performUpdate` directly.  Any thrown error is caught and re-raised as
`InvalidAtomUpdateError` wrapping the original message (state mutations made
before the throw are kept). -/
def set (mws : List (Option OnWriteFn)) (now : Nat) (k : Nat) (hasSet : Bool)
    (v : Int) (st : St) : Except Err Unit × St × List Ev :=
  let inner :=
    match findOnWrite mws 0 with
    | some (i, f) =>
      match f k v (fun nv st0 => performUpdate now k hasSet nv st0) st with
      | (r, st1, evs) => (r, st1, Ev.interceptorRan i :: evs)
    | none => performUpdate now k hasSet v st
  match inner with
  | (.ok u, st1, evs) => (.ok u, st1, evs)
  | (.error e, st1, evs) =>
    (.error (.invalidAtomUpdate ("Failed to update atom: " ++ e.message)), st1, evs)

/-- Sequence of middleware-free `store.set` calls, modelling the body of a
`batch` callback (each element is one `set(atom, value)` on a writable source
atom).  An exception stops the sequence and propagates. -/
def runSets (now : Nat) : List (Nat × Int) → St → Except Err Unit × St × List Ev
  | [], st => (.ok (), st, [])
  | (k, v) :: rest, st =>
    match set [] now k true v st with
    | (.ok _, st1, evs1) =>
      match runSets now rest st1 with
      | (r, st2, evs2) => (r, st2, evs1 ++ evs2)
    | (.error e, st1, evs1) => (.error e, st1, evs1)

/-- The part_005 `notifySubscribers` for one recorded key during the batch
flush: when the key still has an entry, invoke each of its subscribers once
with the entry's current value; a key without an entry notifies nobody. -/
def notifyKey (entries : List (Nat × Entry)) (k : Nat) : List Ev :=
  match mapLookup entries k with
  | some e => List.replicate e.subCount (Ev.notified k e.value)
  | none => []

/-- The flush loop at the end of the outermost `batch`: iterate the recorded
keys in insertion order, notifying each one's current entry. -/
def flushNotifs (entries : List (Nat × Entry)) (batchUpdates : List Nat) : List Ev :=
  batchUpdates.foldl (fun acc k => acc ++ notifyKey entries k) []

/-- The part_005 `Store.batch`: a nested call just runs the callback; the
outermost call sets `isInBatch`, clears `batchUpdates`, runs the callback, and
in a `finally` region resets `isInBatch`, notifies each recorded key's current
entry once per subscriber, and clears `batchUpdates` (also when the callback
threw). -/
def batch (now : Nat) (ops : List (Nat × Int)) (st : St) :
    Except Err Unit × St × List Ev :=
  if st.isInBatch then
    runSets now ops st
  else
    let st1 := { st with isInBatch := true, batchUpdates := [] }
    match runSets now ops st1 with
    | (r, st2, evs) =>
      let st3 := { st2 with isInBatch := false }
      (r, { st3 with batchUpdates := [] },
        evs ++ flushNotifs st3.entries st3.batchUpdates)

end Store5

namespace Store4

/-- Mutable state of the part_004 `class Store`: the public `atoms` map (whose
values may be `undefined`, i.e. `none`), the subscriber table modelled by
per-key subscriber counts, and the private `accessStack`. -/
structure St where
  atoms : List (Nat × Option Int)
  subscribers : List (Nat × Nat)
  stack : List Nat
deriving Repr, DecidableEq

/-- Read recipe for part_004 atoms; values obtained through `get` may be
`undefined`, and so may the computed result. -/
structure Recipe where
  reads : List Nat
  after : List (Option Int) → Except Err (Option Int)

/-- Trace event: the read recipe of the atom with the given key was invoked. -/
inductive Ev where
  | readInvoked (k : Nat)
deriving Repr, DecidableEq

/-- Lookup in the part_004 `atoms` map as JS sees it: a missing key and a
stored `undefined` are both `undefined`. -/
def jsGet (l : List (Nat × Option Int)) (k : Nat) : Option Int :=
  (mapLookup l k).getD none

/-- The part_004 `executeReadMiddleware`: a flat left-to-right reduce of the
middleware list's `onRead` hooks over the value. -/
def executeReadMiddleware (onRead : List (Option Int → Option Int)) (v : Option Int) :
    Option Int :=
  onRead.foldl (fun a f => f a) v

/-- Evaluation of a recipe's nested `get` calls for part_004, threading the
event trace; the recursive `get` at the current fuel is passed in as `g`. -/
def readsLoop (g : Nat → St → Except Err (Option Int) × St × List Ev) :
    List Nat → St → Except Err (List (Option Int)) × St × List Ev
  | [], st => (.ok [], st, [])
  | k :: rest, st =>
    match g k st with
    | (.ok v, st1, ev1) =>
      match readsLoop g rest st1 with
      | (.ok vs, st2, ev2) => (.ok (v :: vs), st2, ev1 ++ ev2)
      | (.error e, st2, ev2) => (.error e, st2, ev1 ++ ev2)
    | (.error e, st1, ev1) => (.error e, st1, ev1)

/-- The part_004 `Store.get`: circular-dependency check, maximum-depth check
(`maxCircularDepth = 100`), then push the key and, in a try/finally that pops
it on every exit path, test cache presence with `value === undefined`; on
`undefined` invoke the read recipe, store the computed value and return it
through the onRead reduce, otherwise return the stored value through the
onRead reduce. -/
def get (fuel : Nat) (onRead : List (Option Int → Option Int)) (env : Nat → Recipe)
    (k : Nat) (st : St) : Except Err (Option Int) × St × List Ev :=
  match fuel with
  | 0 => (.error .fuelExhausted, st, [])
  | fuel + 1 =>
    if k ∈ st.stack then
      (.error (.circularDependency "Circular dependency detected while reading"), st, [])
    else if 100 ≤ st.stack.length then
      (.error (.circularDependency "Maximum circular dependency depth of 100 exceeded"), st, [])
    else
      let st1 := { st with stack := k :: st.stack }
      if jsGet st1.atoms k = none then
        match readsLoop (fun k' st' => get fuel onRead env k' st') (env k).reads st1 with
        | (.ok vs, st2, evs) =>
          match (env k).after vs with
          | .ok computed =>
            let st3 := { st2 with atoms := mapSet st2.atoms k computed }
            (.ok (executeReadMiddleware onRead computed),
              { st3 with stack := st3.stack.erase k }, Ev.readInvoked k :: evs)
          | .error e =>
            (.error e, { st2 with stack := st2.stack.erase k }, Ev.readInvoked k :: evs)
        | (.error e, st2, evs) =>
          (.error e, { st2 with stack := st2.stack.erase k }, Ev.readInvoked k :: evs)
      else
        (.ok (executeReadMiddleware onRead (jsGet st1.atoms k)),
          { st1 with stack := st1.stack.erase k }, [])

/-- The part_004 `Store.set`: run the proposed value through the flat
`executeWriteMiddleware` reduce (each element is the optional `onWrite` hook
of one interceptor), store it, and notify every subscriber of the key —
unconditionally, with no comparison against the previously stored value.
The returned list holds one occurrence of the key per invoked subscriber
callback (part_004 callbacks take no payload). -/
def set (onWrites : List (Option (Int → Int))) (k : Nat) (v : Int) (st : St) :
    St × List Nat :=
  let processed := onWrites.foldl (fun acc m => match m with | some f => f acc | none => acc) v
  let st1 := { st with atoms := mapSet st.atoms k (some processed) }
  match mapLookup st1.subscribers k with
  | some n => (st1, List.replicate n k)
  | none => (st1, [])

end Store4

namespace ComputationCache

/-- Cache entry of part_006 (`value, dependencies, lastComputed, computeTime`). -/
structure CacheEntry where
  value : Int
  dependencies : List Nat
  lastComputed : Nat
  computeTime : Nat
deriving Repr, DecidableEq

/-- State of the part_006 `ComputationCache`: the memo table and the reverse
dependency index (`dependencyGraph : dependency key -> set of dependent keys`). -/
structure CC where
  cache : List (Nat × CacheEntry)
  dependencyGraph : List (Nat × List Nat)
deriving Repr, DecidableEq

/-- Registration of a dependent under a dependency key in the reverse index
(create the dependent set when absent, then `Set.add`). -/
def graphAdd (g : List (Nat × List Nat)) (depKey : Nat) (dependent : Nat) :
    List (Nat × List Nat) :=
  match mapLookup g depKey with
  | some dependents => mapSet g depKey (addKey dependents dependent)
  | none => mapSet g depKey [dependent]

/-- The part_006 `evictOldest`: scan the cache for the entry with the
strictly smallest `lastComputed` (first such entry wins ties) and delete it. -/
def evictOldest (cc : CC) : CC :=
  let oldest := cc.cache.foldl
    (fun acc p =>
      match acc with
      | none => some p
      | some q => if p.2.lastComputed < q.2.lastComputed then some p else acc)
    none
  match oldest with
  | some q => { cc with cache := mapDelete cc.cache q.1 }
  | none => cc

/-- The part_006 `ComputationCache.set`: evict when at capacity
(`maxCacheSize = 1000`), replace the atom's entry in full, and register the
atom as a dependent of each of the NEW dependencies in the reverse index —
the atom is never removed from the dependent sets of its former
dependencies. -/
def set (now : Nat) (cc : CC) (k : Nat) (v : Int) (dependencies : List Nat)
    (computeTime : Nat) : CC :=
  let cc1 := if 1000 ≤ cc.cache.length then evictOldest cc else cc
  let entry : CacheEntry := ⟨v, dependencies, now, computeTime⟩
  { cache := mapSet cc1.cache k entry
    dependencyGraph := dependencies.foldl (fun g d => graphAdd g d k) cc1.dependencyGraph }

/-- The part_006 `ComputationCache.get`: return the entry, refreshing its
`lastComputed` timestamp when present. -/
def get (now : Nat) (cc : CC) (k : Nat) : Option CacheEntry × CC :=
  match mapLookup cc.cache k with
  | some e => (some e, { cc with cache := mapSet cc.cache k { e with lastComputed := now } })
  | none => (none, cc)

/-- Loop over a dependent set during an invalidation cascade; the recursive
`invalidate` at the current fuel is passed in as `g`, and `none` means the
fuel ran out before the cascade finished. -/
def invalidateList (g : CC → Nat → Option CC) : CC → List Nat → Option CC
  | cc, [] => some cc
  | cc, d :: rest =>
    match g cc d with
    | some cc1 => invalidateList g cc1 rest
    | none => none

/-- The part_006 `ComputationCache.invalidate`: delete the atom's cache entry,
then recursively invalidate every key in its dependent set.  The source has
NO visited set, so the recursion is unbounded on a cyclic index; the fuel
argument makes the evaluation total, with `none` modelling a cascade that
never terminates within any finite number of recursive calls. -/
def invalidate : Nat → CC → Nat → Option CC
  | 0, _, _ => none
  | fuel + 1, cc, k =>
    let cc1 := { cc with cache := mapDelete cc.cache k }
    match mapLookup cc1.dependencyGraph k with
    | some dependents => invalidateList (fun c d => invalidate fuel c d) cc1 dependents
    | none => some cc1

end ComputationCache

/-- Claim model of the object returned by `createDerivedAtom` in
`src/src/atoms.ts`: when `config.write` is present the returned object carries
a `set` member (whose body wraps failures in `InvalidAtomUpdateError`); when
`config.write` is absent the plain `atom` object is returned and it has NO
`set` member at all — the `InvalidAtomUpdateError` guard inside the setter
body is unreachable in that case. -/
inductive SetterSlot where
  | absent
  | present (f : Int → Except Err Unit)

/-- The `set` member of the object `createDerivedAtom` returns, as a function
of whether the config carried a `write` recipe (`writeBody` is the setter
built around `config.write`). -/
def createDerivedAtomSetter (hasWrite : Bool) (writeBody : Int → Except Err Unit) :
    SetterSlot :=
  if hasWrite then .present writeBody else .absent

/-- Invocation of `atom.set(value)` in JavaScript: calling a missing member
raises `TypeError: ... is not a function`; otherwise the setter body runs. -/
def invokeSetter (s : SetterSlot) (v : Int) : Except Err Unit :=
  match s with
  | .absent => .error (.typeError "writableAtom.set is not a function")
  | .present f => f v

/-- Discriminates results that are an `InvalidAtomUpdateError`. -/
def isInvalidAtomUpdate : Except Err Unit → Bool
  | .error (.invalidAtomUpdate _) => true
  | _ => false

namespace Store5

/-- Specification vocabulary: the last value a sequence of `set` calls writes
to key `k`, starting from default `d` (the value cached before the batch). -/
def lastWrittenD (k : Nat) : List (Nat × Int) → Int → Int
  | [], d => d
  | (k0, v0) :: rest, d =>
    if k0 = k then lastWrittenD k rest v0 else lastWrittenD k rest d

/-- Specification vocabulary: whether a sequence of `set` calls ever changes
the cached value of key `k`, starting from value `d` (a set call changes the
value when the written value differs from the value cached at that moment). -/
def changedD (k : Nat) : List (Nat × Int) → Int → Bool
  | [], _ => false
  | (k0, v0) :: rest, d =>
    if k0 = k then (decide (d ≠ v0) || changedD k rest v0) else changedD k rest d

/-- Discriminates subscriber-notification events in a write-path trace. -/
def isNotified : Ev → Bool
  | .notified _ _ => true
  | _ => false

/-- The notifications of a trace, as (key, delivered value) pairs. -/
def notifsOf (evs : List Ev) : List (Nat × Int) :=
  evs.filterMap (fun e => match e with | .notified k v => some (k, v) | _ => none)

/-- Specification vocabulary: the cached value of key `k` (0 when no entry). -/
def entryValD (st : St) (k : Nat) : Int :=
  match mapLookup st.entries k with
  | some e => e.value
  | none => 0

/-- Specification vocabulary: the subscriber count of key `k` (0 when no entry). -/
def entrySubD (st : St) (k : Nat) : Nat :=
  match mapLookup st.entries k with
  | some e => e.subCount
  | none => 0

/-- The (key, value) pairs delivered when `notifyKey` fires for `k`. -/
def notifPairs (entries : List (Nat × Entry)) (k : Nat) : List (Nat × Int) :=
  match mapLookup entries k with
  | some e => List.replicate e.subCount (k, e.value)
  | none => []

/-- Store state with nothing cached, nothing in flight and no batch open. -/
def emptySt : St := ⟨[], [], [], false, []⟩

/-- Environment in which atom 0 is self-referential: its read recipe calls
`get` on atom 0 itself. -/
def envSelf : Nat → Recipe := fun _ => ⟨[0], fun vs => .ok (vs.headD 0)⟩

/-- Environment with a two-atom cycle: atom 0 reads atom 1 and atom 1 reads
atom 0 (every other atom reads atom 0 as well, which the demos never consult). -/
def envCyc : Nat → Recipe := fun k =>
  if k = 0 then ⟨[1], fun vs => .ok (vs.headD 0)⟩ else ⟨[0], fun vs => .ok (vs.headD 0)⟩

/-- Store state whose Access Stack already holds atom 0. -/
def stWith0 : St := ⟨[], [], [0], false, []⟩

/-- Store state whose Access Stack holds 100 distinct atom identities
(0 through 99), with no identity repeated. -/
def stDeep : St := ⟨[], [], List.range 100, false, []⟩

/-- Demo store for the write path: atom 1 is a writable source atom cached at
0 with exactly one subscriber. -/
def demoSt : St := ⟨[(1, 0)], [(1, ⟨0, 1, 0, 0⟩)], [], false, []⟩

/-- Interceptor that immediately passes the unchanged value to `next`. -/
def mwPass : OnWriteFn := fun _ v next st => next v st

/-- Interceptor that never calls `next` (it swallows the write). -/
def mwSuppress : OnWriteFn := fun _ _ _ st => (.ok (), st, [])

/-- Middleware list whose first interceptor calls `next` and whose second
interceptor never calls `next`. -/
def demoMws : List (Option OnWriteFn) := [some mwPass, some mwSuppress]

end Store5

namespace Store4

/-- Demo part_004 store: atom 1 is cached at 0 and has exactly one subscriber. -/
def demoSt : St := ⟨[(1, some 0)], [(1, 1)], []⟩

/-- Part_004 store with nothing cached and nothing in flight. -/
def emptySt : St := ⟨[], [], []⟩

/-- Part_004 store whose Access Stack holds 100 distinct atom identities
(0 through 99), with no identity repeated. -/
def stDeep : St := ⟨[], [], List.range 100⟩

/-- Recipe environment in which every atom's read recipe reads nothing and
returns `undefined`. -/
def envUndef : Nat → Recipe := fun _ => ⟨[], fun _ => .ok none⟩

end Store4

namespace ComputationCache

/-- Cache state holding a cyclic reverse dependency index: atom 1 is recorded
as a dependent of atom 0 and atom 0 as a dependent of atom 1 (both atoms have
live cache entries). -/
def ccCyc : CC :=
  ⟨[(0, ⟨0, [1], 0, 0⟩), (1, ⟨0, [0], 0, 0⟩)], [(0, [1]), (1, [0])]⟩

end ComputationCache

theorem mapLookup_mapSet_self {A : Type} (l : List (Nat × A)) (k : Nat) (v : A) :
    mapLookup (mapSet l k v) k = some v := by
  induction l with
  | nil => simp [mapSet, mapLookup]
  | cons p rest ih =>
    obtain ⟨k0, v0⟩ := p
    by_cases h : k0 = k <;> simp [mapSet, mapLookup, h, ih]

theorem mapLookup_mapSet_ne {A : Type} (l : List (Nat × A)) (k k' : Nat) (v : A)
    (h : k ≠ k') : mapLookup (mapSet l k v) k' = mapLookup l k' := by
  induction l with
  | nil => simp [mapSet, mapLookup, h]
  | cons p rest ih =>
    obtain ⟨k0, v0⟩ := p
    by_cases h0 : k0 = k
    · subst h0
      simp [mapSet, mapLookup, h]
    · simp [mapSet, mapLookup, h0, ih]

theorem isSome_mapLookup_mapSet {A : Type} (l : List (Nat × A)) (k k' : Nat) (v : A)
    (h : (mapLookup l k').isSome) : (mapLookup (mapSet l k v) k').isSome := by
  by_cases hk : k = k'
  · subst hk; simp [mapLookup_mapSet_self]
  · rwa [mapLookup_mapSet_ne l k k' v hk]


theorem Store5.readsLoop_preserves_stack (g : Nat → Store5.St → Except Err Int × Store5.St)
    (hg : ∀ k st, ((g k st).2).stack = st.stack) :
    ∀ ks st, ((Store5.readsLoop g ks st).2).stack = st.stack := by
  intro ks
  induction ks with
  | nil => intro st; rfl
  | cons k rest ih =>
    intro st
    rcases hgk : g k st with ⟨r1, st1⟩
    have h1 : st1.stack = st.stack := by
      have := hg k st
      rw [hgk] at this
      simpa using this
    cases r1 with
    | ok v =>
      rcases hrest : Store5.readsLoop g rest st1 with ⟨r2, st2⟩
      have h2 : st2.stack = st1.stack := by
        have := ih st1
        rw [hrest] at this
        simpa using this
      cases r2 <;> simp [Store5.readsLoop, hgk, hrest, h2, h1]
    | error e =>
      simp [Store5.readsLoop, hgk, h1]

theorem Store5.get_preserves_stack :
    ∀ (fuel now : Nat) (onRead : List (Int → Int)) (env : Nat → Store5.Recipe)
      (k : Nat) (st : Store5.St),
      ((Store5.get fuel now onRead env k st).2).stack = st.stack := by
  intro fuel
  induction fuel with
  | zero => intro now onR env k st; rfl
  | succ fuel ih =>
    intro now onR env k st
    simp only [Store5.get]
    by_cases hmem : k ∈ st.stack
    · simp [hmem]
    · by_cases hlen : 100 ≤ st.stack.length
      · simp [hmem, hlen]
      · cases hent : mapLookup st.entries k with
        | some e => simp [hmem, hlen, hent]
        | none =>
          rcases hr : Store5.readsLoop
              (fun k' st' => Store5.get fuel now onR env k' st')
              (env k).reads { st with stack := k :: st.stack } with ⟨r, st2⟩
          have hrl : st2.stack = k :: st.stack := by
            have := Store5.readsLoop_preserves_stack
              (fun k' st' => Store5.get fuel now onR env k' st')
              (fun k' st' => ih now onR env k' st')
              (env k).reads { st with stack := k :: st.stack }
            rw [hr] at this
            simpa using this
          have hstk : st2.stack.erase k = st.stack := by
            rw [hrl]
            exact List.erase_cons_head k st.stack
          cases r with
          | ok vs =>
            cases hafter : (env k).after vs with
            | ok v => simp [hmem, hlen, hent, hr, hafter, hstk]
            | error e => simp [hmem, hlen, hent, hr, hafter, hstk]
          | error e => simp [hmem, hlen, hent, hr, hstk]

theorem Store4.readsLoop_restores_stack
    (g : Nat → Store4.St → Except Err (Option Int) × Store4.St × List Store4.Ev)
    (hg : ∀ k st, ((g k st).2.1).stack = st.stack) :
    ∀ ks st, ((Store4.readsLoop g ks st).2.1).stack = st.stack := by
  intro ks
  induction ks with
  | nil => intro st; rfl
  | cons k rest ih =>
    intro st
    rcases hgk : g k st with ⟨r1, st1, ev1⟩
    have h1 : st1.stack = st.stack := by
      have := hg k st
      rw [hgk] at this
      simpa using this
    cases r1 with
    | ok v =>
      rcases hrest : Store4.readsLoop g rest st1 with ⟨r2, st2, ev2⟩
      have h2 : st2.stack = st1.stack := by
        have := ih st1
        rw [hrest] at this
        simpa using this
      cases r2 <;> simp [Store4.readsLoop, hgk, hrest, h2, h1]
    | error e =>
      simp [Store4.readsLoop, hgk, h1]

theorem Store4.get_restores_stack :
    ∀ (fuel : Nat) (onRead : List (Option Int → Option Int)) (env : Nat → Store4.Recipe)
      (k : Nat) (st : Store4.St),
      ((Store4.get fuel onRead env k st).2.1).stack = st.stack := by
  intro fuel
  induction fuel with
  | zero => intro onR env k st; rfl
  | succ fuel ih =>
    intro onR env k st
    simp only [Store4.get]
    by_cases hmem : k ∈ st.stack
    · simp [hmem]
    · by_cases hlen : 100 ≤ st.stack.length
      · simp [hmem, hlen]
      · by_cases hv : Store4.jsGet st.atoms k = none
        · rcases hr : Store4.readsLoop
              (fun k' st' => Store4.get fuel onR env k' st')
              (env k).reads { st with stack := k :: st.stack } with ⟨r, st2, evs⟩
          have hrl : st2.stack = k :: st.stack := by
            have := Store4.readsLoop_restores_stack
              (fun k' st' => Store4.get fuel onR env k' st')
              (fun k' st' => ih onR env k' st')
              (env k).reads { st with stack := k :: st.stack }
            rw [hr] at this
            simpa using this
          have hstk : st2.stack.erase k = st.stack := by
            rw [hrl]
            exact List.erase_cons_head k st.stack
          cases r with
          | ok vs =>
            cases hafter : (env k).after vs with
            | ok v => simp [hmem, hlen, hv, hr, hafter, hstk]
            | error e => simp [hmem, hlen, hv, hr, hafter, hstk]
          | error e => simp [hmem, hlen, hv, hr, hstk]
        · simp [hmem, hlen, hv, List.erase_cons_head]

/-- Claim C9: every `get` call restores the Access Stack to its pre-call
contents on every exit path — whether the guard rejects the call, the cache
answers, the read recipe returns normally, or the recipe (or a nested `get`)
throws, the resulting stack equals the stack before the call, in both the
part_005 and the part_004 store. -/
theorem c9_access_stack_restored_on_every_exit :
    (∀ (fuel now : Nat) (onRead : List (Int → Int)) (env : Nat → Store5.Recipe)
       (k : Nat) (st : Store5.St),
       ((Store5.get fuel now onRead env k st).2).stack = st.stack)
    ∧ (∀ (fuel : Nat) (onRead : List (Option Int → Option Int)) (env : Nat → Store4.Recipe)
       (k : Nat) (st : Store4.St),
       ((Store4.get fuel onRead env k st).2.1).stack = st.stack) :=
  ⟨Store5.get_preserves_stack, Store4.get_restores_stack⟩

/-- Claim C1: whenever the atom's identity is already on the Access Stack as
`get` is called, the call fails with `CircularDependencyError` and leaves the
store unchanged — in the part_005 store and in the part_004 store alike; in
particular a self-referential atom (read recipe calls `get` on itself) and a
two-atom read cycle both fail with `CircularDependencyError` instead of
returning a value or recursing forever. -/
theorem c1_access_stack_repeat_fails_circular :
    (∀ (fuel now : Nat) (onRead : List (Int → Int)) (env : Nat → Store5.Recipe)
       (k : Nat) (st : Store5.St), k ∈ st.stack →
       Store5.get (fuel + 1) now onRead env k st =
         (.error (.circularDependency "Circular dependency detected"), st))
    ∧ (∀ (fuel : Nat) (onRead : List (Option Int → Option Int)) (env : Nat → Store4.Recipe)
       (k : Nat) (st : Store4.St), k ∈ st.stack →
       Store4.get (fuel + 1) onRead env k st =
         (.error (.circularDependency "Circular dependency detected while reading"), st, []))
    ∧ Store5.get 2 0 [] Store5.envSelf 0 Store5.emptySt =
        (.error (.circularDependency "Circular dependency detected"), Store5.emptySt)
    ∧ Store5.get 3 0 [] Store5.envCyc 0 Store5.emptySt =
        (.error (.circularDependency "Circular dependency detected"), Store5.emptySt)
    ∧ Store5.get 3 0 [] Store5.envCyc 1 Store5.emptySt =
        (.error (.circularDependency "Circular dependency detected"), Store5.emptySt) := by
  refine ⟨?_, ?_, ?_, ?_, ?_⟩
  · intro fuel now onR env k st hmem
    simp [Store5.get, hmem]
  · intro fuel onR env k st hmem
    simp [Store4.get, hmem]
  · rfl
  · rfl
  · rfl

/-- Witness for C1: applying the universal parts at a concrete store whose
Access Stack already holds atom 0. -/
theorem c1_access_stack_repeat_fails_circular_witness :
    Store5.get 1 0 [] Store5.envSelf 0 Store5.stWith0 =
      (.error (.circularDependency "Circular dependency detected"), Store5.stWith0)
    ∧ Store4.get 1 [] Store4.envUndef 0 ⟨[], [], [0]⟩ =
      (.error (.circularDependency "Circular dependency detected while reading"),
        (⟨[], [], [0]⟩ : Store4.St), []) :=
  ⟨c1_access_stack_repeat_fails_circular.1 0 0 [] Store5.envSelf 0 Store5.stWith0 (by decide),
   c1_access_stack_repeat_fails_circular.2.1 0 [] Store4.envUndef 0 ⟨[], [], [0]⟩ (by decide)⟩

/-- Claim C8: once the Access Stack holds 100 atom identities (the configured
`maxCircularDepth`), the next `get` fails with `CircularDependencyError` even
when the requested identity is not on the stack (no identity repeated), in
both the part_005 and the part_004 store. -/
theorem c8_max_depth_100_rejected :
    (∀ (fuel now : Nat) (onRead : List (Int → Int)) (env : Nat → Store5.Recipe)
       (k : Nat) (st : Store5.St), k ∉ st.stack → 100 ≤ st.stack.length →
       Store5.get (fuel + 1) now onRead env k st =
         (.error (.circularDependency "Maximum dependency depth exceeded"), st))
    ∧ (∀ (fuel : Nat) (onRead : List (Option Int → Option Int)) (env : Nat → Store4.Recipe)
       (k : Nat) (st : Store4.St), k ∉ st.stack → 100 ≤ st.stack.length →
       Store4.get (fuel + 1) onRead env k st =
         (.error (.circularDependency "Maximum circular dependency depth of 100 exceeded"),
           st, [])) := by
  constructor
  · intro fuel now onR env k st hmem hlen
    simp [Store5.get, hmem, hlen]
  · intro fuel onR env k st hmem hlen
    simp [Store4.get, hmem, hlen]

/-- Witness for C8: a store whose Access Stack holds the 100 distinct
identities 0..99, queried for the fresh identity 100. -/
theorem c8_max_depth_100_rejected_witness :
    Store5.get 1 0 [] Store5.envSelf 100 Store5.stDeep =
      (.error (.circularDependency "Maximum dependency depth exceeded"), Store5.stDeep)
    ∧ Store4.get 1 [] Store4.envUndef 100 Store4.stDeep =
      (.error (.circularDependency "Maximum circular dependency depth of 100 exceeded"),
        Store4.stDeep, []) :=
  ⟨c8_max_depth_100_rejected.1 0 0 [] Store5.envSelf 100 Store5.stDeep
      (by decide) (by decide),
   c8_max_depth_100_rejected.2 0 [] Store4.envUndef 100 Store4.stDeep
      (by decide) (by decide)⟩

theorem Store4.undefined_result_recomputes (fuel : Nat)
    (onRead : List (Option Int → Option Int)) (env : Nat → Store4.Recipe) (k : Nat)
    (st : Store4.St) (henv : env k = ⟨[], fun _ => .ok none⟩)
    (hmem : k ∉ st.stack) (hlen : st.stack.length < 100)
    (hcache : Store4.jsGet st.atoms k = none) :
    Store4.get (fuel + 1) onRead env k st =
      (.ok (Store4.executeReadMiddleware onRead none),
        { st with atoms := mapSet st.atoms k none }, [Store4.Ev.readInvoked k]) := by
  have hlen' : ¬ (100 ≤ st.stack.length) := by omega
  simp [Store4.get, hmem, hlen', hcache, henv, Store4.readsLoop, List.erase_cons_head]

/-- Claim C10: an atom whose read recipe returns `undefined` is never observed
as cached by the part_004 store — the cache presence test is
`value === undefined`, so the first `get` invokes the recipe, the stored value
still reads back as `undefined`, and the next `get` invokes the recipe again
(re-running cycle detection and the onRead middleware on the freshly computed
value) instead of returning a memoized entry. -/
theorem c10_undefined_result_never_cached
    (fuel1 fuel2 : Nat) (onRead : List (Option Int → Option Int))
    (env : Nat → Store4.Recipe) (k : Nat) (st : Store4.St)
    (henv : env k = ⟨[], fun _ => .ok none⟩)
    (hmem : k ∉ st.stack) (hlen : st.stack.length < 100)
    (hcache : Store4.jsGet st.atoms k = none) :
    (Store4.get (fuel1 + 1) onRead env k st).2.2 = [Store4.Ev.readInvoked k]
    ∧ Store4.jsGet ((Store4.get (fuel1 + 1) onRead env k st).2.1).atoms k = none
    ∧ (Store4.get (fuel2 + 1) onRead env k
        ((Store4.get (fuel1 + 1) onRead env k st).2.1)).2.2
        = [Store4.Ev.readInvoked k] := by
  have h1 := Store4.undefined_result_recomputes fuel1 onRead env k st henv hmem hlen hcache
  have hst1 : (Store4.get (fuel1 + 1) onRead env k st).2.1 =
      { st with atoms := mapSet st.atoms k none } := by rw [h1]
  have hcache1 : Store4.jsGet (mapSet st.atoms k none) k = none := by
    simp [Store4.jsGet, mapLookup_mapSet_self]
  have h2 := Store4.undefined_result_recomputes fuel2 onRead env k
    { st with atoms := mapSet st.atoms k none } henv hmem hlen hcache1
  refine ⟨by rw [h1], ?_, ?_⟩
  · rw [hst1]
    exact hcache1
  · rw [hst1, h2]

/-- Witness for C10: the constantly-`undefined` recipe on an empty part_004
store, read twice; the recipe is invoked by both reads. -/
theorem c10_undefined_result_never_cached_witness :
    (Store4.get 1 [] Store4.envUndef 0 Store4.emptySt).2.2 = [Store4.Ev.readInvoked 0]
    ∧ Store4.jsGet ((Store4.get 1 [] Store4.envUndef 0 Store4.emptySt).2.1).atoms 0 = none
    ∧ (Store4.get 1 [] Store4.envUndef 0
        ((Store4.get 1 [] Store4.envUndef 0 Store4.emptySt).2.1)).2.2
        = [Store4.Ev.readInvoked 0] :=
  c10_undefined_result_never_cached 0 0 [] Store4.envUndef 0 Store4.emptySt
    rfl (by decide) (by decide) rfl

/-- Claim C2 (failing evaluation): in the part_004 store, `set` with a value
equal to the currently cached one still notifies — atom 1 is cached at 0 with
one subscriber, `set(atom1, 0)` leaves the state unchanged yet invokes the
subscriber callback once, where the claim demands zero notifications.  The
part_005 `performUpdate`, by contrast, suppresses the notification for the
same input and emits exactly one notification per subscriber on a change. -/
theorem c2_part004_set_notifies_on_equal_value :
    Store4.set [] 1 0 Store4.demoSt = (Store4.demoSt, [1])
    ∧ (Store5.performUpdate 0 1 true 0 Store5.demoSt).2.2.filter Store5.isNotified = []
    ∧ (Store5.performUpdate 0 1 true 7 Store5.demoSt).2.2.filter Store5.isNotified
        = [Store5.Ev.notified 1 7] := by
  refine ⟨?_, ?_, ?_⟩ <;> decide

/-- Claim C3 (failing evaluation): after atom 2 is stored with dependency set
`{0}` and then re-stored with dependency set `{1}`, its own cache entry's
dependency set is replaced in full, but the reverse dependency index still
lists atom 2 as a dependent of its former dependency 0 — stale reverse edges
are unioned, not removed. -/
theorem c3_reverse_dependency_index_keeps_stale_edges :
    mapLookup (ComputationCache.set 11
        (ComputationCache.set 10 ⟨[], []⟩ 2 5 [0] 1) 2 7 [1] 1).cache 2
      = some ⟨7, [1], 11, 1⟩
    ∧ mapLookup (ComputationCache.set 11
        (ComputationCache.set 10 ⟨[], []⟩ 2 5 [0] 1) 2 7 [1] 1).dependencyGraph 0
      = some [2]
    ∧ mapLookup (ComputationCache.set 11
        (ComputationCache.set 10 ⟨[], []⟩ 2 5 [0] 1) 2 7 [1] 1).dependencyGraph 1
      = some [2] := by
  refine ⟨?_, ?_, ?_⟩ <;> decide

theorem ComputationCache.invalidate_cycle_no_fuel :
    ∀ (fuel : Nat) (cc : ComputationCache.CC),
      mapLookup cc.dependencyGraph 0 = some [1] →
      mapLookup cc.dependencyGraph 1 = some [0] →
      ComputationCache.invalidate fuel cc 0 = none
      ∧ ComputationCache.invalidate fuel cc 1 = none := by
  intro fuel
  induction fuel with
  | zero => intro cc h0 h1; exact ⟨rfl, rfl⟩
  | succ fuel ih =>
    intro cc h0 h1
    constructor
    · have hnone := (ih { cc with cache := mapDelete cc.cache 0 } h0 h1).2
      simp [ComputationCache.invalidate, h0, ComputationCache.invalidateList, hnone]
    · have hnone := (ih { cc with cache := mapDelete cc.cache 1 } h0 h1).1
      simp [ComputationCache.invalidate, h1, ComputationCache.invalidateList, hnone]

/-- Claim C4 (failing evaluation): on a reverse dependency index containing
the two-key cycle 0 ↔ 1, `invalidate(0)` never completes — there is no
visited set, so for every finite recursion budget the cascade runs out of
fuel (the JS original overflows the call stack). -/
theorem c4_invalidate_never_terminates_on_cyclic_index :
    ∀ fuel : Nat, ComputationCache.invalidate fuel ComputationCache.ccCyc 0 = none :=
  fun fuel =>
    (ComputationCache.invalidate_cycle_no_fuel fuel ComputationCache.ccCyc rfl rfl).1

/-- Claim C5 (counterexample): invoking the setter of a derived atom created
without a write recipe directly raises the JavaScript TypeError for a missing
member — `createDerivedAtom` in atoms.ts attaches no `set` member in that
case (matching the repository's own test, which expects
"set is not a function") — and the result is NOT an `InvalidAtomUpdateError`. -/
theorem c5_direct_set_on_writeless_atom_is_type_error :
    invokeSetter (createDerivedAtomSetter false (fun _ => .ok ())) 1
      = .error (.typeError "writableAtom.set is not a function")
    ∧ isInvalidAtomUpdate
        (invokeSetter (createDerivedAtomSetter false (fun _ => .ok ())) 1) = false := by
  exact ⟨rfl, rfl⟩

/-- Claim C5 (amended): a derived atom created without a write recipe carries
no `set` member, so invoking its setter directly fails with the JavaScript
TypeError "is not a function"; routing the update through the part_005
`Store.set` fails with an `InvalidAtomUpdateError` wrapping that TypeError,
and in both cases the store state — in particular every cached value — is
unchanged by the failed attempt. -/
theorem c5_writeless_atom_set_fails_and_leaves_state_unchanged :
    (∀ v : Int, invokeSetter (createDerivedAtomSetter false (fun _ => .ok ())) v
      = .error (.typeError "writableAtom.set is not a function"))
    ∧ (∀ (now k : Nat) (v : Int) (st : Store5.St),
      Store5.set [] now k false v st
        = (.error (.invalidAtomUpdate "Failed to update atom: atom.set is not a function"),
            st, [])) := by
  constructor
  · intro v
    rfl
  · intro now k v st
    rfl

/-- Witness for C5's amended theorem at concrete inputs. -/
theorem c5_writeless_atom_set_fails_witness :
    Store5.set [] 0 1 false 7 Store5.demoSt
      = (.error (.invalidAtomUpdate "Failed to update atom: atom.set is not a function"),
          Store5.demoSt, []) :=
  c5_writeless_atom_set_fails_and_leaves_state_unchanged.2 0 1 7 Store5.demoSt

/-- Claim C7 (failing evaluation): with the middleware list
`[mwPass, mwSuppress]` — the first interceptor calls `next` once, the second
never calls `next` — `Store.set` of part_005 runs ONLY the first interceptor
and hands it `performUpdate` directly as `next`: the second interceptor never
runs even though every interceptor before it called `next`, and the
underlying cache update and notification execute even though an interceptor
in the chain never calls `next`. -/
theorem c7_set_runs_only_first_onwrite_interceptor :
    Store5.set Store5.demoMws 5 1 true 7 Store5.demoSt
      = (.ok (), ⟨[(1, 7)], [(1, ⟨7, 1, 1, 5⟩)], [], false, []⟩,
          [.interceptorRan 0, .performUpdateRan 7, .notified 1 7])
    ∧ Store5.Ev.interceptorRan 1 ∉ (Store5.set Store5.demoMws 5 1 true 7 Store5.demoSt).2.2
    ∧ Store5.Ev.performUpdateRan 7 ∈ (Store5.set Store5.demoMws 5 1 true 7 Store5.demoSt).2.2 := by
  refine ⟨rfl, ?_, ?_⟩ <;> decide

theorem mem_addKey (l : List Nat) (k a : Nat) : a ∈ addKey l k ↔ a = k ∨ a ∈ l := by
  unfold addKey
  by_cases hk : k ∈ l
  · simp only [if_pos hk]
    constructor
    · exact fun h => Or.inr h
    · rintro (rfl | h)
      · exact hk
      · exact h
  · simp [if_neg hk, List.mem_append, or_comm]

theorem addKey_nodup (l : List Nat) (k : Nat) (h : l.Nodup) : (addKey l k).Nodup := by
  unfold addKey
  by_cases hk : k ∈ l
  · simpa [hk]
  · simp [hk, List.nodup_append, h]

theorem Store5.notifsOf_append (a b : List Store5.Ev) :
    Store5.notifsOf (a ++ b) = Store5.notifsOf a ++ Store5.notifsOf b := by
  simp [Store5.notifsOf, List.filterMap_append]

theorem Store5.notifsOf_replicate_notified (n : Nat) (k : Nat) (v : Int) :
    Store5.notifsOf (List.replicate n (Store5.Ev.notified k v))
      = List.replicate n (k, v) := by
  induction n with
  | zero => rfl
  | succ n ih =>
    simp only [List.replicate_succ, Store5.notifsOf, List.filterMap_cons] at ih ⊢
    simp [ih]

theorem Store5.notifsOf_notifyKey (entries : List (Nat × Store5.Entry)) (k : Nat) :
    Store5.notifsOf (Store5.notifyKey entries k) = Store5.notifPairs entries k := by
  unfold Store5.notifyKey Store5.notifPairs
  cases mapLookup entries k with
  | some e => simp [Store5.notifsOf_replicate_notified]
  | none => rfl

theorem Store5.changedD_written (k : Nat) :
    ∀ (ops : List (Nat × Int)) (d : Int), Store5.changedD k ops d = true →
      ∃ v, (k, v) ∈ ops := by
  intro ops
  induction ops with
  | nil => intro d h; simp [Store5.changedD] at h
  | cons p rest ih =>
    obtain ⟨k0, v0⟩ := p
    intro d h
    by_cases hk : k0 = k
    · subst hk
      exact ⟨v0, by simp⟩
    · rw [Store5.changedD, if_neg hk] at h
      rcases ih d h with ⟨v, hv⟩
      exact ⟨v, by simp [hv]⟩

theorem Store5.performUpdate_batch_step (now k : Nat) (v : Int) (st : Store5.St)
    (e : Store5.Entry) (hb : st.isInBatch = true)
    (hent : mapLookup st.entries k = some e) :
    Store5.performUpdate now k true v st =
      if e.value = v then
        (.ok (), { st with backing := mapSet st.backing k v }, [.performUpdateRan v])
      else
        (.ok (),
          { st with backing := mapSet st.backing k v,
                    entries := mapSet st.entries k
                      { e with value := v, version := e.version + 1, lastAccessed := now },
                    batchUpdates := addKey st.batchUpdates k },
          [.performUpdateRan v]) := by
  by_cases heq : e.value = v
  · simp [Store5.performUpdate, mapLookup_mapSet_self, hent, heq]
  · simp [Store5.performUpdate, mapLookup_mapSet_self, hent, heq, hb]

theorem Store5.runSets_spec (now : Nat) :
    ∀ (ops : List (Nat × Int)) (st : Store5.St),
      st.isInBatch = true →
      (∀ p ∈ ops, (mapLookup st.entries p.1).isSome) →
      (Store5.runSets now ops st).1 = .ok ()
      ∧ (Store5.runSets now ops st).2.1.isInBatch = true
      ∧ Store5.notifsOf (Store5.runSets now ops st).2.2 = []
      ∧ (∀ k, (mapLookup (Store5.runSets now ops st).2.1.entries k).isSome
            = (mapLookup st.entries k).isSome)
      ∧ (∀ k, Store5.entrySubD (Store5.runSets now ops st).2.1 k = Store5.entrySubD st k)
      ∧ (∀ k, Store5.entryValD (Store5.runSets now ops st).2.1 k
            = Store5.lastWrittenD k ops (Store5.entryValD st k))
      ∧ (∀ k, k ∈ (Store5.runSets now ops st).2.1.batchUpdates
            ↔ (k ∈ st.batchUpdates ∨ Store5.changedD k ops (Store5.entryValD st k) = true))
      ∧ (st.batchUpdates.Nodup → (Store5.runSets now ops st).2.1.batchUpdates.Nodup) := by
  intro ops
  induction ops with
  | nil =>
    intro st hb _
    exact ⟨rfl, hb, rfl, fun k => rfl, fun k => rfl,
      fun k => rfl, fun k => by simp [Store5.runSets, Store5.changedD], fun h => h⟩
  | cons p rest ih =>
    obtain ⟨k0, v0⟩ := p
    intro st hb hkeys
    have hk0 : (mapLookup st.entries k0).isSome := hkeys (k0, v0) (by simp)
    rcases hent : mapLookup st.entries k0 with _ | e
    · rw [hent] at hk0; simp at hk0
    · have hval0 : Store5.entryValD st k0 = e.value := by
        simp [Store5.entryValD, hent]
      have hpu := Store5.performUpdate_batch_step now k0 v0 st e hb hent
      by_cases heq : e.value = v0
      · -- value unchanged under Object.is: entry untouched, nothing recorded
        rw [if_pos heq] at hpu
        have hset : Store5.set [] now k0 true v0 st =
            (.ok (), { st with backing := mapSet st.backing k0 v0 },
              [.performUpdateRan v0]) := by
          simp only [Store5.set, Store5.findOnWrite, hpu]
        have hAval : ∀ k, Store5.entryValD
            ({ st with backing := mapSet st.backing k0 v0 } : Store5.St) k
            = Store5.entryValD st k := fun k => rfl
        rcases hrest : Store5.runSets now rest { st with backing := mapSet st.backing k0 v0 }
          with ⟨r2, st2, evs2⟩
        have hstep : Store5.runSets now ((k0, v0) :: rest) st
            = (r2, st2, Store5.Ev.performUpdateRan v0 :: evs2) := by
          simp only [Store5.runSets, hset, hrest]
          rfl
        have IH := ih { st with backing := mapSet st.backing k0 v0 } hb
          (fun p hp => hkeys p (List.mem_cons_of_mem _ hp))
        rw [hrest] at IH
        obtain ⟨IH1, IH2, IH3, IH4, IH5, IH6, IH7, IH8⟩ := IH
        rw [hstep]
        refine ⟨IH1, IH2, IH3, IH4, IH5, ?_, ?_, IH8⟩
        · intro k
          have h6 := IH6 k
          rw [hAval k] at h6
          simp only [Store5.lastWrittenD]
          by_cases hk : k0 = k
          · subst hk
            rw [if_pos rfl]
            rw [hval0, heq] at h6
            exact h6
          · rw [if_neg hk]
            exact h6
        · intro k
          have h7 := IH7 k
          rw [hAval k] at h7
          simp only [Store5.changedD]
          by_cases hk : k0 = k
          · subst hk
            rw [if_pos rfl, hval0, heq]
            rw [hval0, heq] at h7
            simpa using h7
          · rw [if_neg hk]
            exact h7
      · -- value changed: entry replaced, key recorded in batchUpdates
        rw [if_neg heq] at hpu
        have hset : Store5.set [] now k0 true v0 st =
            (.ok (),
              { st with backing := mapSet st.backing k0 v0,
                        entries := mapSet st.entries k0
                          { e with value := v0, version := e.version + 1, lastAccessed := now },
                        batchUpdates := addKey st.batchUpdates k0 },
              [.performUpdateRan v0]) := by
          simp only [Store5.set, Store5.findOnWrite, hpu]
        have hiso : ∀ k, (mapLookup (mapSet st.entries k0
            { e with value := v0, version := e.version + 1, lastAccessed := now }) k).isSome
            = (mapLookup st.entries k).isSome := by
          intro k
          by_cases hk : k0 = k
          · subst hk
            rw [mapLookup_mapSet_self, hent]
            rfl
          · rw [mapLookup_mapSet_ne _ _ _ _ hk]
        rcases hrest : Store5.runSets now rest
            { st with backing := mapSet st.backing k0 v0,
                      entries := mapSet st.entries k0
                        { e with value := v0, version := e.version + 1, lastAccessed := now },
                      batchUpdates := addKey st.batchUpdates k0 }
          with ⟨r2, st2, evs2⟩
        have hstep : Store5.runSets now ((k0, v0) :: rest) st
            = (r2, st2, Store5.Ev.performUpdateRan v0 :: evs2) := by
          simp only [Store5.runSets, hset, hrest]
          rfl
        have IH := ih
          { st with backing := mapSet st.backing k0 v0,
                    entries := mapSet st.entries k0
                      { e with value := v0, version := e.version + 1, lastAccessed := now },
                    batchUpdates := addKey st.batchUpdates k0 } hb
          (fun p hp => by
            have h := hkeys p (List.mem_cons_of_mem _ hp)
            show (mapLookup (mapSet st.entries k0
              { e with value := v0, version := e.version + 1, lastAccessed := now }) p.1).isSome
            rw [hiso p.1]
            exact h)
        rw [hrest] at IH
        obtain ⟨IH1, IH2, IH3, IH4, IH5, IH6, IH7, IH8⟩ := IH
        have hvalB : ∀ k, Store5.entryValD
            ({ st with backing := mapSet st.backing k0 v0,
                       entries := mapSet st.entries k0
                         { e with value := v0, version := e.version + 1, lastAccessed := now },
                       batchUpdates := addKey st.batchUpdates k0 } : Store5.St) k
            = if k0 = k then v0 else Store5.entryValD st k := by
          intro k
          by_cases hk : k0 = k
          · subst hk
            simp [Store5.entryValD, mapLookup_mapSet_self]
          · simp [Store5.entryValD, mapLookup_mapSet_ne _ _ _ _ hk, hk]
        have hsubB : ∀ k, Store5.entrySubD
            ({ st with backing := mapSet st.backing k0 v0,
                       entries := mapSet st.entries k0
                         { e with value := v0, version := e.version + 1, lastAccessed := now },
                       batchUpdates := addKey st.batchUpdates k0 } : Store5.St) k
            = Store5.entrySubD st k := by
          intro k
          by_cases hk : k0 = k
          · subst hk
            simp [Store5.entrySubD, mapLookup_mapSet_self, hent]
          · simp [Store5.entrySubD, mapLookup_mapSet_ne _ _ _ _ hk]
        rw [hstep]
        refine ⟨IH1, IH2, IH3, ?_, ?_, ?_, ?_, ?_⟩
        · intro k
          rw [IH4 k]
          exact hiso k
        · intro k
          rw [IH5 k]
          exact hsubB k
        · intro k
          have h6 := IH6 k
          rw [hvalB k] at h6
          simp only [Store5.lastWrittenD]
          by_cases hk : k0 = k
          · subst hk
            rw [if_pos rfl]
            rw [if_pos rfl] at h6
            exact h6
          · rw [if_neg hk]
            rw [if_neg hk] at h6
            exact h6
        · intro k
          have h7 := IH7 k
          rw [hvalB k] at h7
          simp only [Store5.changedD]
          by_cases hk : k0 = k
          · subst hk
            rw [if_pos rfl] at h7 ⊢
            rw [hval0]
            have hmem : k0 ∈ addKey st.batchUpdates k0 := by
              rw [mem_addKey]; exact Or.inl rfl
            constructor
            · intro _
              right
              simp [heq]
            · intro _
              exact (h7).mpr (Or.inl hmem)
          · rw [if_neg hk] at h7 ⊢
            rw [h7, mem_addKey]
            constructor
            · rintro (h | h)
              · rcases h with (h | h)
                · exact absurd h.symm hk
                · exact Or.inl h
              · exact Or.inr h
            · rintro (h | h)
              · exact Or.inl (Or.inr h)
              · exact Or.inr h
        · intro hnd
          exact IH8 (addKey_nodup _ _ hnd)

theorem filter_replicate_eq {A : Type} (n : Nat) (x : A) (p : A → Bool) :
    (List.replicate n x).filter p = if p x then List.replicate n x else [] := by
  induction n with
  | zero => simp
  | succ n ih =>
    by_cases hp : p x
    · simp [List.replicate_succ, List.filter_cons, hp, ih]
    · simp [List.replicate_succ, List.filter_cons, hp, ih]

theorem Store5.flushNotifs_acc (entries : List (Nat × Store5.Entry)) :
    ∀ (batchUpdates : List Nat) (acc : List Store5.Ev),
      batchUpdates.foldl (fun a k => a ++ Store5.notifyKey entries k) acc
        = acc ++ Store5.flushNotifs entries batchUpdates := by
  intro bu
  induction bu with
  | nil => intro acc; simp [Store5.flushNotifs]
  | cons k0 rest ih =>
    intro acc
    simp only [Store5.flushNotifs, List.foldl_cons] at ih ⊢
    rw [ih (acc ++ Store5.notifyKey entries k0), ih ([] ++ Store5.notifyKey entries k0)]
    simp

theorem Store5.flushNotifs_cons (entries : List (Nat × Store5.Entry)) (k0 : Nat)
    (rest : List Nat) :
    Store5.flushNotifs entries (k0 :: rest)
      = Store5.notifyKey entries k0 ++ Store5.flushNotifs entries rest := by
  simp only [Store5.flushNotifs, List.foldl_cons]
  rw [Store5.flushNotifs_acc entries rest ([] ++ Store5.notifyKey entries k0)]
  simp [Store5.flushNotifs]

theorem Store5.filter_notifPairs (entries : List (Nat × Store5.Entry)) (k0 k : Nat) :
    (Store5.notifPairs entries k0).filter (fun p => decide (p.1 = k))
      = if k0 = k then Store5.notifPairs entries k0 else [] := by
  unfold Store5.notifPairs
  cases mapLookup entries k0 with
  | some e =>
    rw [filter_replicate_eq]
    by_cases hk : k0 = k <;> simp [hk]
  | none => simp

theorem Store5.flush_filter (entries : List (Nat × Store5.Entry)) :
    ∀ (batchUpdates : List Nat), batchUpdates.Nodup → ∀ k,
      (Store5.notifsOf (Store5.flushNotifs entries batchUpdates)).filter
          (fun p => decide (p.1 = k))
        = if k ∈ batchUpdates then Store5.notifPairs entries k else [] := by
  intro bu
  induction bu with
  | nil => intro _ k; simp [Store5.flushNotifs, Store5.notifsOf]
  | cons k0 rest ih =>
    intro hnd k
    have hnd' := List.nodup_cons.mp hnd
    rw [Store5.flushNotifs_cons, Store5.notifsOf_append, List.filter_append,
      Store5.notifsOf_notifyKey, Store5.filter_notifPairs]
    by_cases hk : k0 = k
    · subst hk
      rw [if_pos rfl, ih hnd'.2 k0, if_neg hnd'.1]
      simp
    · rw [if_neg hk, ih hnd'.2 k]
      have hmemeq : (k ∈ k0 :: rest) ↔ (k ∈ rest) := by
        constructor
        · intro h
          rcases List.mem_cons.mp h with h1 | h1
          · exact absurd h1.symm hk
          · exact h1
        · exact fun h => List.mem_cons_of_mem _ h
      by_cases hmem : k ∈ rest
      · simp [hmem, hmemeq]
      · simp [hmem, hmemeq]

/-- Claim C6: inside one `batch` call every `set` defers its notifications
(the callback phase emits none); when the outermost batch completes, each atom
whose value changed during the batch is notified exactly once — one callback
invocation per subscriber — carrying the value of the last `set` applied to
it (three sets of the same atom ending at `v3` yield one notification
consistent with `v3`); atoms that never changed are not notified; the final
cached value of every atom is the last value written to it; and a nested
`batch` call collapses into the outermost one (it just runs its callback). -/
theorem c6_batch_defers_and_coalesces_notifications
    (now : Nat) (ops : List (Nat × Int)) (st : Store5.St)
    (hb : st.isInBatch = false)
    (hkeys : ∀ p ∈ ops, (mapLookup st.entries p.1).isSome) :
    (Store5.batch now ops st).1 = .ok ()
    ∧ Store5.notifsOf ((Store5.runSets now ops
        { st with isInBatch := true, batchUpdates := [] }).2.2) = []
    ∧ (∀ k, (Store5.notifsOf (Store5.batch now ops st).2.2).filter
          (fun p => decide (p.1 = k))
        = if Store5.changedD k ops (Store5.entryValD st k) = true
          then List.replicate (Store5.entrySubD st k)
            (k, Store5.lastWrittenD k ops (Store5.entryValD st k))
          else [])
    ∧ (∀ k, Store5.entryValD (Store5.batch now ops st).2.1 k
        = Store5.lastWrittenD k ops (Store5.entryValD st k))
    ∧ (∀ st0 : Store5.St, st0.isInBatch = true →
        Store5.batch now ops st0 = Store5.runSets now ops st0) := by
  have hkeys1 : ∀ p ∈ ops,
      (mapLookup ({ st with isInBatch := true, batchUpdates := [] } : Store5.St).entries
        p.1).isSome := hkeys
  have SP := Store5.runSets_spec now ops
    { st with isInBatch := true, batchUpdates := [] } rfl hkeys1
  rcases hrun : Store5.runSets now ops { st with isInBatch := true, batchUpdates := [] }
    with ⟨r, st2, evs⟩
  rw [hrun] at SP
  obtain ⟨S1, S2, S3, S4, S5, S6, S7, S8⟩ := SP
  have hbatch : Store5.batch now ops st =
      (r, { st2 with isInBatch := false, batchUpdates := [] },
        evs ++ Store5.flushNotifs st2.entries st2.batchUpdates) := by
    simp only [Store5.batch, hb, Bool.false_eq_true, if_false, hrun]
  have hnd2 : st2.batchUpdates.Nodup := S8 (by simp)
  have hmem2 : ∀ k, k ∈ st2.batchUpdates
      ↔ Store5.changedD k ops (Store5.entryValD st k) = true := by
    intro k
    have h := S7 k
    simpa using h
  refine ⟨?_, S3, ?_, ?_, ?_⟩
  · rw [hbatch]
    exact S1
  · intro k
    rw [hbatch]
    show (Store5.notifsOf (evs ++ Store5.flushNotifs st2.entries st2.batchUpdates)).filter
        (fun p => decide (p.1 = k)) = _
    rw [Store5.notifsOf_append, S3, List.nil_append,
      Store5.flush_filter st2.entries st2.batchUpdates hnd2 k]
    by_cases hch : Store5.changedD k ops (Store5.entryValD st k) = true
    · rw [if_pos ((hmem2 k).mpr hch), if_pos hch]
      -- the key was written during the batch, so its entry survived
      rcases Store5.changedD_written k ops _ hch with ⟨v, hv⟩
      have hsome0 : (mapLookup st.entries k).isSome := hkeys (k, v) hv
      have hsome2 : (mapLookup st2.entries k).isSome := by
        rw [S4 k]
        exact hsome0
      rcases hent2 : mapLookup st2.entries k with _ | e2
      · rw [hent2] at hsome2; simp at hsome2
      · have hval2 : Store5.entryValD st2 k = e2.value := by
          simp [Store5.entryValD, hent2]
        have hsub2 : Store5.entrySubD st2 k = e2.subCount := by
          simp [Store5.entrySubD, hent2]
        have hev : e2.value = Store5.lastWrittenD k ops (Store5.entryValD st k) := by
          rw [← hval2]
          exact S6 k
        have hes : e2.subCount = Store5.entrySubD st k := by
          rw [← hsub2]
          exact S5 k
        unfold Store5.notifPairs
        rw [hent2]
        show List.replicate e2.subCount (k, e2.value)
          = List.replicate (Store5.entrySubD st k)
            (k, Store5.lastWrittenD k ops (Store5.entryValD st k))
        rw [hev, hes]
    · rw [if_neg (fun h => hch ((hmem2 k).mp h)), if_neg hch]
  · intro k
    rw [hbatch]
    show Store5.entryValD ({ st2 with isInBatch := false, batchUpdates := [] } : Store5.St) k = _
    have : Store5.entryValD ({ st2 with isInBatch := false, batchUpdates := [] } : Store5.St) k
        = Store5.entryValD st2 k := rfl
    rw [this]
    exact S6 k
  · intro st0 h0
    simp [Store5.batch, h0]

/-- Witness for C6: three sets of atom 1 inside one batch, ending at 3, on the
demo store (atom 1 cached at 0 with one subscriber) — the batch succeeds and
delivers exactly one notification for atom 1, carrying 3. -/
theorem c6_batch_defers_and_coalesces_notifications_witness :
    (Store5.batch 9 [(1, 1), (1, 2), (1, 3)] Store5.demoSt).1 = .ok ()
    ∧ (Store5.notifsOf (Store5.batch 9 [(1, 1), (1, 2), (1, 3)] Store5.demoSt).2.2).filter
        (fun p => decide (p.1 = 1)) = [(1, 3)] := by
  have h := c6_batch_defers_and_coalesces_notifications 9 [(1, 1), (1, 2), (1, 3)]
    Store5.demoSt rfl (by decide)
  refine ⟨h.1, ?_⟩
  rw [h.2.2.1 1]
  decide
